import Mathlib

/-!
Shallow embedding of the check-all orchestration script
(scripts/check-all.ts, YAML-configured variant): a CLI tool that runs a
configured list of shell commands in two modes (check / fix), aggregates
their pass/fail results and exits 0 on full success, 1 otherwise.

External commands are modelled by an environment assigning to every command
string an outcome (exit code, captured stdout/stderr, error message).
Wall-clock time and the completion order of concurrently launched commands
are modelled as explicit parameters, so that properties about their
(ir)relevance can be stated.
-/

namespace CheckAll

/-- Outcome of executing one external shell command: its exit code, captured
output streams, and the message of the execution error raised when the exit
code is non-zero (as produced by the promisified exec). -/
structure CmdResult where
  code : Nat
  stdout : String
  stderr : String
  message : String
deriving Repr, DecidableEq

/-- A command succeeded when its exit code is zero. -/
def CmdResult.ok (r : CmdResult) : Bool := r.code == 0

/-- The environment: what each external command does when invoked. -/
def Env := String → CmdResult

/-- The configuration loaded from check-all.yml: three named arrays of
command strings (check-only parallel group, common parallel group,
sequential format group). -/
structure Config where
  parallel_check_commands : List String
  parallel_common_check_commands : List String
  sequential_format_commands : List String
deriving Repr, DecidableEq

/-- An error record collected for one failed command: the command string and
the underlying error message (source: errors.push with command and error). -/
structure CmdError where
  command : String
  message : String
deriving Repr, DecidableEq

/-- Console lines produced for one sequentially executed command: its stdout
and stderr when present, preceded by a failure marker line naming the command
when it failed (source: the loop body of runSequential). -/
def cmdConsole (command : String) (r : CmdResult) : List String :=
  (if r.ok then [] else ["❌ Command failed: " ++ command]) ++
  (if r.stdout = "" then [] else [r.stdout]) ++
  (if r.stderr = "" then [] else [r.stderr])

/-- Result of the sequential stage: the commands invoked in order, the
console lines printed, and the collected error records. -/
structure SeqResult where
  invoked : List String
  console : List String
  errors : List CmdError
deriving Repr, DecidableEq

/-- runSequential: execute commands one at a time in list order, continuing
past individual failures and collecting an error record for each failed
command (source: the for-loop accumulating into errors). -/
def runSequential (env : Env) : List String → SeqResult
  | [] => ⟨[], [], []⟩
  | command :: rest =>
    let r := env command
    let tail := runSequential env rest
    { invoked := command :: tail.invoked
      console := cmdConsole command r ++ tail.console
      errors := (if r.ok then [] else [⟨command, r.message⟩]) ++ tail.errors }

/-- The aggregate error thrown at the end of runSequential: none when no
command failed, otherwise a message listing every collected failure
(source: the errors.length check and the thrown Error). -/
def seqThrown (s : SeqResult) : Option String :=
  if s.errors = [] then none
  else some ("Sequential commands failed:\n" ++
    String.intercalate "\n" (s.errors.map fun e => e.command ++ ": " ++ e.message))

/-- Modelled from the spec: the concurrently library (an external dependency
whose implementation is not part of this repository) launches every listed
command, never kills siblings (the kill-list option is empty), and its result
promise rejects when some commands exited non-zero, reporting those
commands. This computes the commands that failed. -/
def concurrentlyFailures (env : Env) (commands : List String) : List String :=
  commands.filter fun c => !(env c).ok

/-- Modelled from the spec: the order in which the grouped output of
concurrently launched commands is flushed is a completion schedule, not the
launch order. A schedule selects distinct valid indices, remaining commands
follow in launch order. The result is always a permutation of the input. -/
def scheduleOrder (sched : List Nat) (commands : List String) : List String :=
  let idxs := (sched.filter (· < commands.length)).dedup
  let rest := (List.range commands.length).filter (fun i => decide (i ∉ idxs))
  (idxs ++ rest).filterMap fun i => commands[i]?

/-- Modelled from the spec: console lines relayed for one concurrently
launched command: its output streams verbatim and a close line naming the
command and its exit code. -/
def parBlock (env : Env) (c : String) : List String :=
  let r := env c
  (if r.stdout = "" then [] else [r.stdout]) ++
  (if r.stderr = "" then [] else [r.stderr]) ++
  [c ++ " exited with code " ++ toString r.code]

/-- Result of a parallel stage: commands invoked (in launch order), console
lines (in schedule order), and the aggregate error, if any. -/
structure ParResult where
  invoked : List String
  console : List String
  thrown : Option String
deriving Repr, DecidableEq

/-- runConcurrentlyOnly: launch all commands concurrently, let every one of
them run to completion, and throw an aggregate error naming the failed
commands when any exited non-zero (source: the try/await result/catch
wrapping concurrently; the rejection content is modelled from the spec). -/
def runConcurrentlyOnly (env : Env) (commands : List String) (sched : List Nat) :
    ParResult :=
  let failures := concurrentlyFailures env commands
  { invoked := commands
    console := ((scheduleOrder sched commands).map (parBlock env)).flatten
    thrown :=
      if failures = [] then none
      else some ("Some commands failed: " ++ String.intercalate ", " failures) }

/-- Seconds with two decimals for the elapsed milliseconds, mirroring
(endTime - startTime) / 1000 rendered with toFixed(2). -/
def durationString (startTime endTime : Nat) : String :=
  let cs := (endTime - startTime + 5) / 10
  toString (cs / 100) ++ "." ++
    (if cs % 100 < 10 then "0" else "") ++ toString (cs % 100)

/-- Result of the whole process: every command invoked, the console lines,
and the process exit code. -/
structure RunResult where
  invoked : List String
  console : List String
  exitCode : Nat
deriving Repr, DecidableEq

/-- runWithTimer: run the wrapped stage, print a timed success or failure
line, and exit 0 on success and 1 on any thrown error; the thrown error
itself is discarded (source: the try/catch around fn() ending in
process.exit). -/
def runWithTimer (thrownMsg : Option String) (startTime endTime : Nat)
    (successMessage failureMessage : String) : List String × Nat :=
  let duration := durationString startTime endTime
  match thrownMsg with
  | none =>
    (["✅ " ++ successMessage ++ " (execution time: " ++ duration ++ "s)\n"], 0)
  | some _ =>
    (["❌ " ++ failureMessage ++ " (execution time: " ++ duration ++ "s)"], 1)

/-- runCheck: check mode runs the check-only parallel group together with the
common parallel group concurrently, under the timer wrapper (source:
runCheck spreading both arrays into runConcurrently). -/
def runCheck (cfg : Config) (env : Env) (sched : List Nat)
    (startTime endTime : Nat) : RunResult :=
  let commands := cfg.parallel_check_commands ++ cfg.parallel_common_check_commands
  let par := runConcurrentlyOnly env commands sched
  let timer := runWithTimer par.thrown startTime endTime
    "All checks completed" "Checks failed"
  { invoked := par.invoked
    console := par.console ++ timer.1
    exitCode := timer.2 }

/-- One catch block of runFix: when the stage threw, record its message
under the stage's tag, else record nothing (source: the try/catch blocks in
runFix pushing a tagged message onto errors). -/
def stageError (tag : String) (o : Option String) : List String :=
  match o with
  | none => []
  | some m => [tag ++ m]

/-- The errors list accumulated by runFix: the caught aggregate error of the
sequential stage, if any, followed by the caught aggregate error of the
parallel stage, if any (source: the two try/catch blocks in runFix pushing
onto errors). -/
def fixErrors (cfg : Config) (env : Env) (sched : List Nat) : List String :=
  stageError "Sequential execution failed: "
    (seqThrown (runSequential env cfg.sequential_format_commands)) ++
  stageError "Parallel execution failed: "
    (runConcurrentlyOnly env cfg.parallel_common_check_commands sched).thrown

/-- runFix: fix mode runs the sequential format group first (catching its
aggregate error), then the common parallel group (catching its aggregate
error), and fails when either stage recorded an error (source: runFix with
its two try/catch blocks and the final errors.length check). -/
def runFix (cfg : Config) (env : Env) (sched : List Nat)
    (startTime endTime : Nat) : RunResult :=
  let seq := runSequential env cfg.sequential_format_commands
  let par := runConcurrentlyOnly env cfg.parallel_common_check_commands sched
  let errors := fixErrors cfg env sched
  let thrown :=
    if errors = [] then none else some (String.intercalate "\n\n" errors)
  let timer := runWithTimer thrown startTime endTime
    "All fixes and checks completed" "Fixes or checks failed"
  { invoked := seq.invoked ++ par.invoked
    console := seq.console ++ par.console ++ timer.1
    exitCode := timer.2 }

/-- Entry point mode selection: fix mode exactly when some CLI argument is
the string fix (source: args.includes in run). -/
def isFix (args : List String) : Bool := args.contains "fix"

/-- run: route to fix or check mode based on the CLI arguments. -/
def run (cfg : Config) (env : Env) (args : List String) (sched : List Nat)
    (startTime endTime : Nat) : RunResult :=
  if isFix args then runFix cfg env sched startTime endTime
  else runCheck cfg env sched startTime endTime

/-- The whole process: the configuration file is read and parsed once at
module load, before run() executes; a missing or malformed file (modelled as
none) is an uncaught exception that terminates the process with exit code 1
before any command is invoked (source: the top-level readFileSync and parse
preceding the call to run). -/
def program (loaded : Option Config) (env : Env) (args : List String)
    (sched : List Nat) (startTime endTime : Nat) : RunResult :=
  match loaded with
  | none => { invoked := [], console := [], exitCode := 1 }
  | some cfg => run cfg env args sched startTime endTime

/-! ### Concrete fixtures for witnesses -/

/-- A concrete configuration with the three command groups of the shipped
boilerplate. -/
def cfgW : Config :=
  { parallel_check_commands := ["bun lint", "bun prettier"]
    parallel_common_check_commands := ["bun tsc", "bun knip", "bun test:unit"]
    sequential_format_commands := ["bun format", "bun prettier:fix"] }

/-- An environment where every command succeeds silently. -/
def envOkW : Env := fun _ => ⟨0, "", "", ""⟩

/-- An environment where the type checker fails and everything else
succeeds. -/
def envFailW : Env := fun c =>
  if c = "bun tsc" then ⟨1, "", "type errors found", "Command failed: bun tsc"⟩
  else ⟨0, "", "", ""⟩

/-- A second environment with the same success pattern as envFailW but
different exit code values, outputs and messages. -/
def envFailW2 : Env := fun c =>
  if c = "bun tsc" then ⟨2, "lots of output", "other words", "boom"⟩
  else ⟨0, "all fine", "", ""⟩

/-! ### Helper lemmas -/

/-- The sequential stage invokes exactly its input list, in order, whatever
the commands' outcomes. -/
theorem runSequential_invoked (env : Env) (commands : List String) :
    (runSequential env commands).invoked = commands := by
  induction commands with
  | nil => rfl
  | cons c rest ih => simp [runSequential, ih]

/-- The sequential stage collects exactly one error record per failing
command, carrying the command string and its error message. -/
theorem runSequential_errors (env : Env) (commands : List String) :
    (runSequential env commands).errors =
      (commands.filter fun c => !(env c).ok).map
        fun c => ⟨c, (env c).message⟩ := by
  induction commands with
  | nil => rfl
  | cons c rest ih =>
    by_cases h : (env c).ok <;> simp [runSequential, ih, List.filter_cons, h]

/-- The parallel stage invokes exactly its input list. -/
theorem runConcurrentlyOnly_invoked (env : Env) (commands : List String)
    (sched : List Nat) :
    (runConcurrentlyOnly env commands sched).invoked = commands := rfl

/-- The parallel stage throws no aggregate error exactly when every listed
command succeeded. -/
theorem runConcurrentlyOnly_thrown_eq_none (env : Env) (commands : List String)
    (sched : List Nat) :
    (runConcurrentlyOnly env commands sched).thrown = none ↔
      ∀ c ∈ commands, (env c).ok := by
  simp only [runConcurrentlyOnly, concurrentlyFailures]
  by_cases h : commands.filter (fun c => !(env c).ok) = []
  · rw [if_pos h]
    constructor
    · intro _ c hc
      have := List.filter_eq_nil_iff.mp h c hc
      simpa using this
    · intro _
      rfl
  · rw [if_neg h]
    constructor
    · intro hcontra
      exact absurd hcontra (Option.some_ne_none _)
    · intro hall
      refine absurd (List.filter_eq_nil_iff.mpr ?_) h
      intro c hc
      simp [hall c hc]

/-- The exit code chosen by runWithTimer: 1 when the wrapped stage threw, 0
otherwise. -/
theorem runWithTimer_exit (t : Option String) (s e : Nat) (a b : String) :
    (runWithTimer t s e a b).2 = if t.isSome then 1 else 0 := by
  cases t <;> rfl

/-- The sequential stage throws no aggregate error exactly when every listed
command succeeded. -/
theorem seqThrown_eq_none (env : Env) (commands : List String) :
    seqThrown (runSequential env commands) = none ↔
      ∀ c ∈ commands, (env c).ok := by
  unfold seqThrown
  rw [runSequential_errors]
  by_cases h : commands.filter (fun c => !(env c).ok) = []
  · rw [h, List.map_nil, if_pos rfl]
    constructor
    · intro _ c hc
      have := List.filter_eq_nil_iff.mp h c hc
      simpa using this
    · intro _
      rfl
  · rw [if_neg (by simpa using h)]
    constructor
    · intro hcontra
      exact absurd hcontra (Option.some_ne_none _)
    · intro hall
      refine absurd (List.filter_eq_nil_iff.mpr ?_) h
      intro c hc
      simp [hall c hc]

/-- A stage's error record list is empty exactly when that stage threw
nothing. -/
theorem stageError_eq_nil (tag : String) (o : Option String) :
    stageError tag o = [] ↔ o = none := by
  cases o <;> simp [stageError]

/-- The fix-mode errors list is empty exactly when both stages fully
succeeded. -/
theorem fixErrors_eq_nil (cfg : Config) (env : Env) (sched : List Nat) :
    fixErrors cfg env sched = [] ↔
      (∀ c ∈ cfg.sequential_format_commands, (env c).ok) ∧
      (∀ c ∈ cfg.parallel_common_check_commands, (env c).ok) := by
  unfold fixErrors
  rw [List.append_eq_nil, stageError_eq_nil, stageError_eq_nil,
    seqThrown_eq_none, runConcurrentlyOnly_thrown_eq_none]

/-- Exit code of check mode: 1 exactly when some command of the combined
parallel list failed, 0 otherwise. -/
theorem runCheck_exitCode (cfg : Config) (env : Env) (sched : List Nat)
    (startTime endTime : Nat) :
    (runCheck cfg env sched startTime endTime).exitCode =
      if ∀ c ∈ cfg.parallel_check_commands ++ cfg.parallel_common_check_commands,
          (env c).ok then 0 else 1 := by
  have hiff := runConcurrentlyOnly_thrown_eq_none env
    (cfg.parallel_check_commands ++ cfg.parallel_common_check_commands) sched
  have he : (runCheck cfg env sched startTime endTime).exitCode =
      (runWithTimer (runConcurrentlyOnly env
        (cfg.parallel_check_commands ++ cfg.parallel_common_check_commands)
        sched).thrown startTime endTime
        "All checks completed" "Checks failed").2 := rfl
  rw [he, runWithTimer_exit]
  by_cases h : ∀ c ∈ cfg.parallel_check_commands ++ cfg.parallel_common_check_commands,
      (env c).ok
  · rw [hiff.mpr h, if_pos h]
    rfl
  · rw [if_neg h]
    rcases hpar : (runConcurrentlyOnly env
        (cfg.parallel_check_commands ++ cfg.parallel_common_check_commands)
        sched).thrown with _ | m
    · exact absurd (hiff.mp hpar) h
    · rfl

/-- Exit code of fix mode: 1 exactly when some command of the sequential
format group or of the common parallel group failed, 0 otherwise. -/
theorem runFix_exitCode (cfg : Config) (env : Env) (sched : List Nat)
    (startTime endTime : Nat) :
    (runFix cfg env sched startTime endTime).exitCode =
      if (∀ c ∈ cfg.sequential_format_commands, (env c).ok) ∧
          (∀ c ∈ cfg.parallel_common_check_commands, (env c).ok) then 0 else 1 := by
  have he : (runFix cfg env sched startTime endTime).exitCode =
      (runWithTimer (if fixErrors cfg env sched = [] then none
        else some (String.intercalate "\n\n" (fixErrors cfg env sched)))
        startTime endTime
        "All fixes and checks completed" "Fixes or checks failed").2 := rfl
  rw [he, runWithTimer_exit]
  by_cases h : fixErrors cfg env sched = []
  · rw [if_pos h, if_pos ((fixErrors_eq_nil cfg env sched).mp h)]
    rfl
  · rw [if_neg h, if_neg (fun hc => h ((fixErrors_eq_nil cfg env sched).mpr hc))]
    rfl

/-- Check mode invokes the check-only group followed by the common group,
independently of the command outcomes. -/
theorem runCheck_invoked (cfg : Config) (env : Env) (sched : List Nat)
    (startTime endTime : Nat) :
    (runCheck cfg env sched startTime endTime).invoked =
      cfg.parallel_check_commands ++ cfg.parallel_common_check_commands := rfl

/-- Fix mode invokes the sequential format group in list order followed by
the common group, independently of the command outcomes. -/
theorem runFix_invoked (cfg : Config) (env : Env) (sched : List Nat)
    (startTime endTime : Nat) :
    (runFix cfg env sched startTime endTime).invoked =
      cfg.sequential_format_commands ++ cfg.parallel_common_check_commands := by
  have he : (runFix cfg env sched startTime endTime).invoked =
      (runSequential env cfg.sequential_format_commands).invoked ++
        cfg.parallel_common_check_commands := rfl
  rw [he, runSequential_invoked]

/-- Every command of the list appears in any completion schedule's order. -/
theorem mem_scheduleOrder (sched : List Nat) (commands : List String)
    (c : String) (h : c ∈ commands) : c ∈ scheduleOrder sched commands := by
  obtain ⟨i, hi, hget⟩ := List.mem_iff_getElem.mp h
  simp only [scheduleOrder]
  apply List.mem_filterMap.mpr
  refine ⟨i, ?_, ?_⟩
  · by_cases hmem : i ∈ (sched.filter (· < commands.length)).dedup
    · exact List.mem_append_left _ hmem
    · refine List.mem_append_right _ ?_
      apply List.mem_filter.mpr
      exact ⟨List.mem_range.mpr hi, by simp only [decide_eq_true_eq]; exact hmem⟩
  · rw [List.getElem?_eq_getElem hi, hget]

/-- The console of the sequential stage contains a failure marker line
naming every failing command. -/
theorem mem_runSequential_console (env : Env) (commands : List String)
    (c : String) (hc : c ∈ commands) (hf : ¬ (env c).ok) :
    ("❌ Command failed: " ++ c) ∈ (runSequential env commands).console := by
  induction commands with
  | nil => cases hc
  | cons d rest ih =>
    rcases List.mem_cons.mp hc with heq | hmem
    · subst heq
      have hfb : (env c).ok = false := by
        cases hok : (env c).ok
        · rfl
        · exact absurd hok hf
      simp [runSequential, cmdConsole, hfb]
    · have := ih hmem
      simp only [runSequential, List.mem_append]
      right
      exact this

/-- The console of the parallel stage contains a close line naming every
command of the list together with its exit code. -/
theorem mem_parConsole (env : Env) (commands : List String) (sched : List Nat)
    (c : String) (hc : c ∈ commands) :
    (c ++ " exited with code " ++ toString (env c).code) ∈
      (runConcurrentlyOnly env commands sched).console := by
  have h1 := mem_scheduleOrder sched commands c hc
  have h2 : parBlock env c ∈ (scheduleOrder sched commands).map (parBlock env) :=
    List.mem_map_of_mem _ h1
  have hgoal : (runConcurrentlyOnly env commands sched).console =
      ((scheduleOrder sched commands).map (parBlock env)).flatten := rfl
  rw [hgoal]
  apply List.mem_flatten.mpr
  refine ⟨parBlock env c, h2, ?_⟩
  simp [parBlock]

/-! ### Claim theorems -/

/-- C1: For every command-list configuration, check mode invokes exactly the
union (the concatenation) of the check-only group and the parallel-common
group, and a command of the sequential-format group that belongs to neither
of those two groups is never invoked. -/
theorem check_invokes_exactly_check_groups (cfg : Config) (env : Env)
    (sched : List Nat) (startTime endTime : Nat) :
    (runCheck cfg env sched startTime endTime).invoked =
      cfg.parallel_check_commands ++ cfg.parallel_common_check_commands ∧
    ∀ c ∈ cfg.sequential_format_commands,
      c ∉ cfg.parallel_check_commands →
      c ∉ cfg.parallel_common_check_commands →
      c ∉ (runCheck cfg env sched startTime endTime).invoked := by
  refine ⟨runCheck_invoked cfg env sched startTime endTime, ?_⟩
  intro c _ h1 h2 hc
  rw [runCheck_invoked] at hc
  rcases List.mem_append.mp hc with h | h
  · exact h1 h
  · exact h2 h

/-- Witness for C1 at a concrete configuration: the invoked list is the
union of the two check groups and the first format command is not
invoked. -/
theorem check_invokes_exactly_check_groups_witness :
    (runCheck cfgW envOkW [] 0 0).invoked =
      cfgW.parallel_check_commands ++ cfgW.parallel_common_check_commands ∧
    "bun format" ∉ (runCheck cfgW envOkW [] 0 0).invoked :=
  ⟨(check_invokes_exactly_check_groups cfgW envOkW [] 0 0).1,
   (check_invokes_exactly_check_groups cfgW envOkW [] 0 0).2 "bun format"
     (by decide) (by decide) (by decide)⟩

/-- C2: For every command-list configuration, fix mode invokes exactly the
sequential-format group, in list order, followed by the parallel-common
group, and a command of the check-only group that belongs to neither of
those two groups is never invoked. -/
theorem fix_invokes_exactly_fix_groups (cfg : Config) (env : Env)
    (sched : List Nat) (startTime endTime : Nat) :
    (runFix cfg env sched startTime endTime).invoked =
      cfg.sequential_format_commands ++ cfg.parallel_common_check_commands ∧
    ∀ c ∈ cfg.parallel_check_commands,
      c ∉ cfg.sequential_format_commands →
      c ∉ cfg.parallel_common_check_commands →
      c ∉ (runFix cfg env sched startTime endTime).invoked := by
  refine ⟨runFix_invoked cfg env sched startTime endTime, ?_⟩
  intro c _ h1 h2 hc
  rw [runFix_invoked] at hc
  rcases List.mem_append.mp hc with h | h
  · exact h1 h
  · exact h2 h

/-- Witness for C2 at a concrete configuration: the invoked list is the
format group followed by the common group and the first check-only command
is not invoked. -/
theorem fix_invokes_exactly_fix_groups_witness :
    (runFix cfgW envOkW [] 0 0).invoked =
      cfgW.sequential_format_commands ++ cfgW.parallel_common_check_commands ∧
    "bun lint" ∉ (runFix cfgW envOkW [] 0 0).invoked :=
  ⟨(fix_invokes_exactly_fix_groups cfgW envOkW [] 0 0).1,
   (fix_invokes_exactly_fix_groups cfgW envOkW [] 0 0).2 "bun lint"
     (by decide) (by decide) (by decide)⟩

/-- C3: In either mode, if some invoked command exits non-zero then the
process exit code is 1, and the invoked command list is the same as under
any other environment, schedule and timing: no sibling is skipped because
of a failure. -/
theorem any_failure_exits_one (cfg : Config) (env env' : Env)
    (args : List String) (sched sched' : List Nat) (t1 t2 t1' t2' : Nat)
    (h : ∃ c ∈ (run cfg env args sched t1 t2).invoked, ¬ (env c).ok) :
    (run cfg env args sched t1 t2).exitCode = 1 ∧
    (run cfg env args sched t1 t2).invoked =
      (run cfg env' args sched' t1' t2').invoked := by
  unfold run at h ⊢
  by_cases hf : isFix args = true
  · rw [if_pos hf] at h ⊢
    obtain ⟨c, hc, hfail⟩ := h
    rw [runFix_invoked] at hc
    constructor
    · rw [runFix_exitCode]
      rw [if_neg ?_]
      rintro ⟨h1, h2⟩
      rcases List.mem_append.mp hc with hmem | hmem
      · exact hfail (h1 c hmem)
      · exact hfail (h2 c hmem)
    · rw [if_pos hf, runFix_invoked, runFix_invoked]
  · rw [if_neg hf] at h ⊢
    obtain ⟨c, hc, hfail⟩ := h
    rw [runCheck_invoked] at hc
    constructor
    · rw [runCheck_exitCode]
      rw [if_neg ?_]
      intro hall
      exact hfail (hall c hc)
    · rw [if_neg hf, runCheck_invoked, runCheck_invoked]

/-- Witness for C3: with the type checker failing in check mode the exit
code is 1 and the invoked list matches the all-success run's. -/
theorem any_failure_exits_one_witness :
    (run cfgW envFailW [] [] 0 0).exitCode = 1 ∧
    (run cfgW envFailW [] [] 0 0).invoked =
      (run cfgW envOkW [] [1, 0] 3 9).invoked :=
  any_failure_exits_one cfgW envFailW envOkW [] [] [1, 0] 0 0 3 9
    ⟨"bun tsc", by decide, by decide⟩

/-- C4: In either mode, if every invoked command exits 0 then the process
exit code is 0. -/
theorem all_success_exits_zero (cfg : Config) (env : Env) (args : List String)
    (sched : List Nat) (t1 t2 : Nat)
    (h : ∀ c ∈ (run cfg env args sched t1 t2).invoked, (env c).ok) :
    (run cfg env args sched t1 t2).exitCode = 0 := by
  unfold run at h ⊢
  by_cases hf : isFix args = true
  · rw [if_pos hf] at h ⊢
    rw [runFix_invoked] at h
    rw [runFix_exitCode]
    rw [if_pos ?_]
    exact ⟨fun c hc => h c (List.mem_append_left _ hc),
           fun c hc => h c (List.mem_append_right _ hc)⟩
  · rw [if_neg hf] at h ⊢
    rw [runCheck_invoked] at h
    rw [runCheck_exitCode, if_pos h]

/-- Witness for C4: with every command succeeding in fix mode the exit code
is 0. -/
theorem all_success_exits_zero_witness :
    (run cfgW envOkW ["fix"] [] 0 0).exitCode = 0 :=
  all_success_exits_zero cfgW envOkW ["fix"] [] 0 0 (by decide)

/-- C5: In fix mode the sequential stage invokes every format command in
list order and collects an error record for each individual failure, the
parallel-common stage is invoked regardless of sequential errors, and the
exit code is 1 exactly when either stage had a failing command. -/
theorem fix_collects_and_continues (cfg : Config) (env : Env)
    (sched : List Nat) (t1 t2 : Nat) :
    (runSequential env cfg.sequential_format_commands).invoked =
      cfg.sequential_format_commands ∧
    (runSequential env cfg.sequential_format_commands).errors =
      ((cfg.sequential_format_commands.filter fun c => !(env c).ok).map
        fun c => ⟨c, (env c).message⟩) ∧
    (runFix cfg env sched t1 t2).invoked =
      cfg.sequential_format_commands ++ cfg.parallel_common_check_commands ∧
    ((runFix cfg env sched t1 t2).exitCode = 1 ↔
      (∃ c ∈ cfg.sequential_format_commands, ¬ (env c).ok) ∨
      (∃ c ∈ cfg.parallel_common_check_commands, ¬ (env c).ok)) := by
  refine ⟨runSequential_invoked env _, runSequential_errors env _,
    runFix_invoked cfg env sched t1 t2, ?_⟩
  rw [runFix_exitCode]
  by_cases h : (∀ c ∈ cfg.sequential_format_commands, (env c).ok) ∧
      (∀ c ∈ cfg.parallel_common_check_commands, (env c).ok)
  · rw [if_pos h]
    constructor
    · intro h01
      exact absurd h01 (by decide)
    · rintro (⟨c, hc, hfail⟩ | ⟨c, hc, hfail⟩)
      · exact absurd (h.1 c hc) hfail
      · exact absurd (h.2 c hc) hfail
  · rw [if_neg h]
    constructor
    · intro _
      rcases not_and_or.mp h with h1 | h1
      · left
        push_neg at h1
        exact h1
      · right
        push_neg at h1
        exact h1
    · intro _
      rfl

/-- Witness for C5: a failing type check in fix mode produces exit code
1. -/
theorem fix_collects_and_continues_witness :
    (runFix cfgW envFailW [] 0 0).exitCode = 1 :=
  (fix_collects_and_continues cfgW envFailW [] 0 0).2.2.2.mpr
    (Or.inr ⟨"bun tsc", by decide, by decide⟩)

/-- C6: When the startup configuration load fails (missing or malformed
file, modelled as none) the process exits non-zero before any command of
any group is invoked. -/
theorem missing_config_aborts (env : Env) (args : List String)
    (sched : List Nat) (t1 t2 : Nat) :
    (program none env args sched t1 t2).invoked = [] ∧
    (program none env args sched t1 t2).exitCode = 1 :=
  ⟨rfl, rfl⟩

/-- C7: With no argument the entry point runs check mode, with the single
argument fix it runs fix mode, and with any other single argument it runs
check mode. -/
theorem run_mode_selection (cfg : Config) (env : Env) (sched : List Nat)
    (t1 t2 : Nat) :
    run cfg env [] sched t1 t2 = runCheck cfg env sched t1 t2 ∧
    run cfg env ["fix"] sched t1 t2 = runFix cfg env sched t1 t2 ∧
    ∀ a : String, a ≠ "fix" →
      run cfg env [a] sched t1 t2 = runCheck cfg env sched t1 t2 := by
  refine ⟨rfl, rfl, ?_⟩
  intro a ha
  unfold run
  rw [if_neg ?_]
  intro hfix
  have hmem : "fix" ∈ [a] := List.elem_iff.mp hfix
  rcases List.mem_cons.mp hmem with heq | hnil
  · exact ha heq.symm
  · cases hnil

/-- Witness for C7: a single non-fix argument selects check mode. -/
theorem run_mode_selection_witness :
    run cfgW envOkW ["--verbose"] [] 0 0 = runCheck cfgW envOkW [] 0 0 :=
  (run_mode_selection cfgW envOkW [] 0 0).2.2 "--verbose" (by decide)

/-- C8: Every individual command failure is converted into a collected
error record carrying the command string and the underlying error message;
the aggregate error of the sequential stage lists every individual failure
and the aggregate error of a parallel stage names every failed command; the
console output names each failing command in both modes. -/
theorem failure_records_and_reporting (cfg : Config) (env : Env)
    (sched : List Nat) (t1 t2 : Nat) :
    (runSequential env cfg.sequential_format_commands).errors =
      ((cfg.sequential_format_commands.filter fun c => !(env c).ok).map
        fun c => ⟨c, (env c).message⟩) ∧
    seqThrown (runSequential env cfg.sequential_format_commands) =
      (if (cfg.sequential_format_commands.filter fun c => !(env c).ok) = []
       then none
       else some ("Sequential commands failed:\n" ++ String.intercalate "\n"
         ((cfg.sequential_format_commands.filter fun c => !(env c).ok).map
           fun c => c ++ ": " ++ (env c).message))) ∧
    (∀ commands : List String,
      (runConcurrentlyOnly env commands sched).thrown =
        (if commands.filter (fun c => !(env c).ok) = [] then none
         else some ("Some commands failed: " ++ String.intercalate ", "
           (commands.filter fun c => !(env c).ok)))) ∧
    (∀ c ∈ cfg.sequential_format_commands, ¬ (env c).ok →
      ("❌ Command failed: " ++ c) ∈ (runFix cfg env sched t1 t2).console) ∧
    (∀ c ∈ cfg.parallel_check_commands ++ cfg.parallel_common_check_commands,
      ¬ (env c).ok →
      (c ++ " exited with code " ++ toString (env c).code) ∈
        (runCheck cfg env sched t1 t2).console) := by
  refine ⟨runSequential_errors env _, ?_, fun _ => rfl, ?_, ?_⟩
  · unfold seqThrown
    rw [runSequential_errors]
    by_cases h : (cfg.sequential_format_commands.filter fun c => !(env c).ok) = []
    · rw [h]
      rfl
    · rw [if_neg (by simpa using h), if_neg h, List.map_map]
      rfl
  · intro c hc hfail
    have hmem := mem_runSequential_console env cfg.sequential_format_commands c hc hfail
    have he : (runFix cfg env sched t1 t2).console =
        ((runSequential env cfg.sequential_format_commands).console ++
        (runConcurrentlyOnly env cfg.parallel_common_check_commands sched).console) ++
          (runWithTimer (if fixErrors cfg env sched = [] then none
            else some (String.intercalate "\n\n" (fixErrors cfg env sched)))
            t1 t2 "All fixes and checks completed" "Fixes or checks failed").1 := rfl
    rw [he]
    exact List.mem_append_left _ (List.mem_append_left _ hmem)
  · intro c hc _
    have hmem := mem_parConsole env
      (cfg.parallel_check_commands ++ cfg.parallel_common_check_commands) sched c hc
    have he : (runCheck cfg env sched t1 t2).console =
        (runConcurrentlyOnly env
          (cfg.parallel_check_commands ++ cfg.parallel_common_check_commands)
          sched).console ++
        (runWithTimer (runConcurrentlyOnly env
            (cfg.parallel_check_commands ++ cfg.parallel_common_check_commands)
            sched).thrown t1 t2 "All checks completed" "Checks failed").1 := rfl
    rw [he]
    exact List.mem_append_left _ hmem

/-- Witness for C8: the failing type checker is named on the check-mode
console. -/
theorem failure_records_and_reporting_witness :
    ("bun tsc" ++ " exited with code " ++ toString (envFailW "bun tsc").code) ∈
      (runCheck cfgW envFailW [] 0 0).console :=
  (failure_records_and_reporting cfgW envFailW [] 0 0).2.2.2.2 "bun tsc"
    (by decide) (by decide)

/-- C9: Fix mode is selected exactly when some argument, at any position,
is the string fix; any other arguments are ignored and select check mode,
in particular a dashed or capitalized variant. -/
theorem fix_selection_by_membership (cfg : Config) (env : Env)
    (sched : List Nat) (t1 t2 : Nat) (args : List String) :
    (isFix args = true ↔ "fix" ∈ args) ∧
    run cfg env ["--fix"] sched t1 t2 = runCheck cfg env sched t1 t2 ∧
    run cfg env ["Fix"] sched t1 t2 = runCheck cfg env sched t1 t2 ∧
    run cfg env ["build", "fix", "verbose"] sched t1 t2 =
      runFix cfg env sched t1 t2 := by
  exact ⟨List.elem_iff, rfl, rfl, rfl⟩

/-- Witness for C9: an argument list containing fix in second position
selects fix mode. -/
theorem fix_selection_by_membership_witness :
    isFix ["lint", "fix"] = true :=
  ((fix_selection_by_membership cfgW envOkW [] 0 0 ["lint", "fix"]).1).mpr
    (by decide)

/-- C10: The exit code is a function of the mode and the per-command
success pattern alone: two runs with the same mode whose environments agree
on the success of every invoked command produce the same exit code, whatever
the outputs, messages, completion schedules or timings. -/
theorem exit_code_deterministic (cfg : Config) (env env' : Env)
    (args : List String) (sched sched' : List Nat) (t1 t2 t1' t2' : Nat)
    (h : ∀ c ∈ (run cfg env args sched t1 t2).invoked, (env c).ok = (env' c).ok) :
    (run cfg env args sched t1 t2).exitCode =
      (run cfg env' args sched' t1' t2').exitCode := by
  unfold run at h ⊢
  by_cases hf : isFix args = true
  · rw [if_pos hf] at h ⊢
    rw [if_pos hf]
    rw [runFix_invoked] at h
    rw [runFix_exitCode, runFix_exitCode]
    refine if_congr ?_ rfl rfl
    constructor
    · rintro ⟨h1, h2⟩
      exact ⟨fun c hc => (h c (List.mem_append_left _ hc)) ▸ h1 c hc,
             fun c hc => (h c (List.mem_append_right _ hc)) ▸ h2 c hc⟩
    · rintro ⟨h1, h2⟩
      exact ⟨fun c hc => (h c (List.mem_append_left _ hc)).symm ▸ h1 c hc,
             fun c hc => (h c (List.mem_append_right _ hc)).symm ▸ h2 c hc⟩
  · rw [if_neg hf] at h ⊢
    rw [if_neg hf]
    rw [runCheck_invoked] at h
    rw [runCheck_exitCode, runCheck_exitCode]
    refine if_congr ?_ rfl rfl
    constructor
    · intro h1 c hc
      exact (h c hc) ▸ h1 c hc
    · intro h1 c hc
      exact (h c hc).symm ▸ h1 c hc

/-- Witness for C10: two check-mode runs with the same success pattern but
different outputs, messages, schedules and timings have equal exit
codes. -/
theorem exit_code_deterministic_witness :
    (run cfgW envFailW [] [] 0 0).exitCode =
      (run cfgW envFailW2 [] [2, 1, 0] 5 17).exitCode :=
  exit_code_deterministic cfgW envFailW envFailW2 [] [] [2, 1, 0] 0 0 5 17
    (by decide)

end CheckAll
